import Mathlib

/-!
Verification development for the sleep-health-analysis repository.

Shallow embedding of the Python sources:
* `web_app/app.py` — risk heuristics (pure functions over scalars, modelled on ℚ);
* `src/data/data_loader.py` — synthetic generator and CSV/database loaders;
* `src/etl/transformer.py` — cleaning and feature engineering over tables;
* `src/analysis/analyzer.py` — weekly grouped means and z-score anomaly detection.

Python floats are modelled as rationals (ℚ); a missing value (NaN/NaT) is
modelled as `Option.none`; a raised exception is modelled as `Except.error`.
-/

namespace SleepHealth

/-! ## Risk heuristics (`web_app/app.py`) -/

/-- Duration bucket of the risk score, `web_app/app.py` lines 44–49
(`if sleep_duration < 6: += 30 elif < 7: += 15 elif > 9: += 10`). -/
def durationPenalty (d : ℚ) : ℚ :=
  if d < 6 then 30 else if d < 7 then 15 else if d > 9 then 10 else 0

/-- Quality bucket of the risk score, lines 52–55. -/
def qualityPenalty (q : ℚ) : ℚ :=
  if q < 60 then 25 else if q < 75 then 15 else 0

/-- Deep-sleep bucket of the risk score, lines 58–59. -/
def deepPenalty (dp : ℚ) : ℚ := if dp < 15 then 20 else 0

/-- REM-sleep bucket of the risk score, lines 60–61. -/
def remPenalty (rm : ℚ) : ℚ := if rm < 20 then 15 else 0

/-- Age bucket of the risk score, lines 64–67. -/
def agePenalty (a : ℚ) : ℚ :=
  if a ≥ 60 then 20 else if a ≥ 45 then 10 else 0

/-- Stress bucket of the risk score, lines 70–73. -/
def stressPenalty (s : ℚ) : ℚ :=
  if s ≥ 8 then 25 else if s ≥ 6 then 15 else 0

/-- Heart-rate bucket of the risk score, lines 76–79. -/
def heartPenalty (h : ℚ) : ℚ :=
  if h > 75 then 15 else if h < 55 then 10 else 0

/-- Function `calculate_health_risk_score` from `web_app/app.py` (lines 38–81):
`risk_score` starts at 0, each factor's `if/elif` chain adds its bucket
penalty, and the result is `min(100, risk_score)`.  The seven chains touch
disjoint inputs, so the sequential accumulation is the sum of the buckets. -/
def calculate_health_risk_score (sleep_duration quality_score deep_sleep_pct
    rem_sleep_pct age stress_level heart_rate : ℚ) : ℚ :=
  min 100 (durationPenalty sleep_duration + qualityPenalty quality_score +
    deepPenalty deep_sleep_pct + remPenalty rem_sleep_pct + agePenalty age +
    stressPenalty stress_level + heartPenalty heart_rate)

/-- Function `predict_health_conditions` from `web_app/app.py` (lines 83–103):
fixed-order list of condition labels, each gated by a boolean predicate. -/
def predict_health_conditions (sleep_duration quality_score deep_sleep_pct
    rem_sleep_pct age stress_level heart_rate : ℚ) : List String :=
  let c1 : List String :=
    if sleep_duration < 6 ∧ heart_rate > 70 then ["Increased cardiovascular risk"] else []
  let c2 : List String :=
    if sleep_duration < 6 ∨ sleep_duration > 9 then ["Metabolic disorder risk"] else []
  let c3 : List String :=
    if deep_sleep_pct < 15 ∨ rem_sleep_pct < 20 then ["Cognitive decline risk"] else []
  let c4 : List String :=
    if stress_level > 7 ∧ quality_score < 70 then ["Mental health vulnerability"] else []
  let c5 : List String :=
    if age > 50 ∧ deep_sleep_pct < 18 then ["Age-related sleep disorder risk"] else []
  c1 ++ c2 ++ c3 ++ c4 ++ c5

/-- Function `estimate_life_expectancy_impact` from `web_app/app.py` (lines 105–126):
additive non-positive penalty terms scaled by an age factor. -/
def estimate_life_expectancy_impact (sleep_duration quality_score stress_level
    age : ℚ) : ℚ :=
  let b0 : ℚ := 0
  let b1 := if sleep_duration < 6 then b0 - 3
            else if sleep_duration < 7 then b0 - 3/2
            else if sleep_duration > 9 then b0 - 1
            else b0
  let b2 := if quality_score < 60 then b1 - 2
            else if quality_score < 75 then b1 - 1
            else b1
  let b3 := if stress_level > 7 then b2 - 2 else b2
  let age_factor := if age > 30 then 1 + (age - 30) / 100 else 1
  b3 * age_factor

/-- C6: at inputs duration=5, quality=50, deep=10, rem=15, age=65, stress=9,
heart_rate=80 the risk score is exactly 100 (clamped) and the predicted
condition list is non-empty and contains the cardiovascular-risk flag. -/
theorem risk_scenario_duration5_score100_cardio :
    calculate_health_risk_score 5 50 10 15 65 9 80 = 100 ∧
    "Increased cardiovascular risk" ∈ predict_health_conditions 5 50 10 15 65 9 80 ∧
    predict_health_conditions 5 50 10 15 65 9 80 ≠ [] := by
  refine ⟨by norm_num [calculate_health_risk_score, durationPenalty, qualityPenalty,
    deepPenalty, remPenalty, agePenalty, stressPenalty, heartPenalty], ?_, ?_⟩ <;>
    (norm_num [predict_health_conditions]; try decide)

/-- C10: `estimate_life_expectancy_impact` never returns a positive value:
the base impact is a sum of non-positive penalties and the age factor is
positive. -/
theorem estimate_life_expectancy_impact_nonpos
    (sleep_duration quality_score stress_level age : ℚ) :
    estimate_life_expectancy_impact sleep_duration quality_score stress_level age ≤ 0 := by
  unfold estimate_life_expectancy_impact
  split_ifs <;> (apply mul_nonpos_of_nonpos_of_nonneg) <;> linarith

/-! ### Per-factor penalty facts -/

lemma durationPenalty_nonneg (d : ℚ) : 0 ≤ durationPenalty d := by
  unfold durationPenalty; split_ifs <;> norm_num

lemma qualityPenalty_nonneg (q : ℚ) : 0 ≤ qualityPenalty q := by
  unfold qualityPenalty; split_ifs <;> norm_num

lemma deepPenalty_nonneg (dp : ℚ) : 0 ≤ deepPenalty dp := by
  unfold deepPenalty; split_ifs <;> norm_num

lemma remPenalty_nonneg (rm : ℚ) : 0 ≤ remPenalty rm := by
  unfold remPenalty; split_ifs <;> norm_num

lemma agePenalty_nonneg (a : ℚ) : 0 ≤ agePenalty a := by
  unfold agePenalty; split_ifs <;> norm_num

lemma stressPenalty_nonneg (s : ℚ) : 0 ≤ stressPenalty s := by
  unfold stressPenalty; split_ifs <;> norm_num

lemma heartPenalty_nonneg (h : ℚ) : 0 ≤ heartPenalty h := by
  unfold heartPenalty; split_ifs <;> norm_num

lemma durationPenalty_anti_below (d d' : ℚ) (hd : d' ≤ d) (h9 : d ≤ 9) :
    durationPenalty d ≤ durationPenalty d' := by
  unfold durationPenalty; split_ifs <;> linarith

lemma durationPenalty_mono_above (d d' : ℚ) (hd : d ≤ d') (h7 : 7 ≤ d) :
    durationPenalty d ≤ durationPenalty d' := by
  unfold durationPenalty; split_ifs <;> linarith

lemma qualityPenalty_anti (q q' : ℚ) (hq : q' ≤ q) :
    qualityPenalty q ≤ qualityPenalty q' := by
  unfold qualityPenalty; split_ifs <;> linarith

lemma deepPenalty_anti (dp dp' : ℚ) (hdp : dp' ≤ dp) :
    deepPenalty dp ≤ deepPenalty dp' := by
  unfold deepPenalty; split_ifs <;> linarith

lemma remPenalty_anti (rm rm' : ℚ) (hrm : rm' ≤ rm) :
    remPenalty rm ≤ remPenalty rm' := by
  unfold remPenalty; split_ifs <;> linarith

lemma agePenalty_mono (a a' : ℚ) (ha : a ≤ a') :
    agePenalty a ≤ agePenalty a' := by
  unfold agePenalty; split_ifs <;> linarith

lemma stressPenalty_mono (s s' : ℚ) (hs : s ≤ s') :
    stressPenalty s ≤ stressPenalty s' := by
  unfold stressPenalty; split_ifs <;> linarith

lemma heartPenalty_anti_below (h h' : ℚ) (hh : h' ≤ h) (h75 : h ≤ 75) :
    heartPenalty h ≤ heartPenalty h' := by
  unfold heartPenalty; split_ifs <;> linarith

lemma heartPenalty_mono_above (h h' : ℚ) (hh : h ≤ h') (h55 : 55 ≤ h) :
    heartPenalty h ≤ heartPenalty h' := by
  unfold heartPenalty; split_ifs <;> linarith

lemma score_mono_of_penalties_le
    {x y : ℚ} (hxy : x ≤ y) : min 100 x ≤ min 100 y :=
  min_le_min le_rfl hxy

/-- C4: `calculate_health_risk_score` always lies in [0, 100], and moving any
single input in its risk-increasing direction (lower duration while at or
below 9, higher duration while at or above 7, lower quality, lower deep%,
lower REM%, higher age, higher stress, lower heart rate while at or below 75,
higher heart rate while at or above 55) never decreases the score. -/
theorem calculate_health_risk_score_range_and_monotone
    (d q dp rm a s h : ℚ) :
    (0 ≤ calculate_health_risk_score d q dp rm a s h ∧
      calculate_health_risk_score d q dp rm a s h ≤ 100) ∧
    (∀ d', d' ≤ d → d ≤ 9 →
      calculate_health_risk_score d q dp rm a s h ≤
        calculate_health_risk_score d' q dp rm a s h) ∧
    (∀ d', d ≤ d' → 7 ≤ d →
      calculate_health_risk_score d q dp rm a s h ≤
        calculate_health_risk_score d' q dp rm a s h) ∧
    (∀ q', q' ≤ q →
      calculate_health_risk_score d q dp rm a s h ≤
        calculate_health_risk_score d q' dp rm a s h) ∧
    (∀ dp', dp' ≤ dp →
      calculate_health_risk_score d q dp rm a s h ≤
        calculate_health_risk_score d q dp' rm a s h) ∧
    (∀ rm', rm' ≤ rm →
      calculate_health_risk_score d q dp rm a s h ≤
        calculate_health_risk_score d q dp rm' a s h) ∧
    (∀ a', a ≤ a' →
      calculate_health_risk_score d q dp rm a s h ≤
        calculate_health_risk_score d q dp rm a' s h) ∧
    (∀ s', s ≤ s' →
      calculate_health_risk_score d q dp rm a s h ≤
        calculate_health_risk_score d q dp rm a s' h) ∧
    (∀ h', h' ≤ h → h ≤ 75 →
      calculate_health_risk_score d q dp rm a s h ≤
        calculate_health_risk_score d q dp rm a s h') ∧
    (∀ h', h ≤ h' → 55 ≤ h →
      calculate_health_risk_score d q dp rm a s h ≤
        calculate_health_risk_score d q dp rm a s h') := by
  have hnn : 0 ≤ durationPenalty d + qualityPenalty q + deepPenalty dp +
      remPenalty rm + agePenalty a + stressPenalty s + heartPenalty h := by
    have := durationPenalty_nonneg d
    have := qualityPenalty_nonneg q
    have := deepPenalty_nonneg dp
    have := remPenalty_nonneg rm
    have := agePenalty_nonneg a
    have := stressPenalty_nonneg s
    have := heartPenalty_nonneg h
    linarith
  refine ⟨⟨le_min (by norm_num) hnn, min_le_left _ _⟩, ?_, ?_, ?_, ?_, ?_, ?_, ?_, ?_, ?_⟩
  · intro d' h1 h2
    exact score_mono_of_penalties_le (by
      have := durationPenalty_anti_below d d' h1 h2; linarith)
  · intro d' h1 h2
    exact score_mono_of_penalties_le (by
      have := durationPenalty_mono_above d d' h1 h2; linarith)
  · intro q' h1
    exact score_mono_of_penalties_le (by
      have := qualityPenalty_anti q q' h1; linarith)
  · intro dp' h1
    exact score_mono_of_penalties_le (by
      have := deepPenalty_anti dp dp' h1; linarith)
  · intro rm' h1
    exact score_mono_of_penalties_le (by
      have := remPenalty_anti rm rm' h1; linarith)
  · intro a' h1
    exact score_mono_of_penalties_le (by
      have := agePenalty_mono a a' h1; linarith)
  · intro s' h1
    exact score_mono_of_penalties_le (by
      have := stressPenalty_mono s s' h1; linarith)
  · intro h' h1 h2
    exact score_mono_of_penalties_le (by
      have := heartPenalty_anti_below h h' h1 h2; linarith)
  · intro h' h1 h2
    exact score_mono_of_penalties_le (by
      have := heartPenalty_mono_above h h' h1 h2; linarith)

/-- C4 witness: the range and a risk-increasing move (lowering duration from
6.5 below 6, holding the rest fixed) at concrete inputs. -/
theorem calculate_health_risk_score_range_and_monotone_witness :
    (0 ≤ calculate_health_risk_score (13/2) 80 22 25 40 3 65 ∧
      calculate_health_risk_score (13/2) 80 22 25 40 3 65 ≤ 100) ∧
    calculate_health_risk_score (13/2) 80 22 25 40 3 65 ≤
      calculate_health_risk_score 5 80 22 25 40 3 65 :=
  ⟨(calculate_health_risk_score_range_and_monotone (13/2) 80 22 25 40 3 65).1,
   (calculate_health_risk_score_range_and_monotone (13/2) 80 22 25 40 3 65).2.1
     5 (by norm_num) (by norm_num)⟩

/-! ## Synthetic data generator (`src/data/data_loader.py`)

`SleepDataGenerator.__init__` stores `n_samples` and seeds numpy's global
PRNG with the fixed seed 42.  The seeded PRNG is modelled as an abstract
stream `ℕ → ℚ` of standard-normal draws: seeding with the same seed always
yields the same stream, and `generate_data` is a pure function of the stream
and `n_samples`.  Column `j` (in source sampling order) of row `i` consumes
draw `j * n + i`, since `np.random.normal(mu, sigma, n)` consumes `n`
consecutive draws scaled by `mu + sigma * z`.  Dates are days since the
epoch `datetime(2025, 1, 1)`. -/

/-- One raw generated observation (columns of the DataFrame built at
`data_loader.py` lines 23–43, after `_apply_constraints`). -/
structure RawObservation where
  date : ℕ
  sleep_duration : ℚ
  quality_score : ℚ
  bedtime : ℚ
  wake_time : ℚ
  activity_level : ℚ
  stress_level : ℚ
  heart_rate : ℚ
  deep_sleep_pct : ℚ
  rem_sleep_pct : ℚ
  light_sleep_pct : ℚ
  deriving DecidableEq, Repr

/-- Numpy `np.clip(x, lo, hi)`. -/
def clip (x lo hi : ℚ) : ℚ := min hi (max lo x)

/-- Numpy `np.mod(x, 24)` on rationals (result in `[0, 24)` for the modulus 24). -/
def qmod24 (x : ℚ) : ℚ := x - 24 * ⌊x / 24⌋

/-- Failure of `generate_data`: `np.random.normal(mu, sigma, n)` raises
`ValueError: negative dimensions are not allowed` when `n < 0`. -/
inductive GenError where
  | negativeDimension
  deriving DecidableEq, Repr

/-- Row `i` of `SleepDataGenerator.generate_data` (`data_loader.py` lines
16–56, including `_apply_constraints`): date `i` days after the epoch, the
eight sampled metrics scaled from the draw stream, `wake_time` and
`light_sleep_pct` derived per their formulas (before clipping), and the five
listed columns clipped. -/
def genRow (stream : ℕ → ℚ) (n i : ℕ) : RawObservation :=
  let sleep_duration := 7.5 + 1.5 * stream i
  let quality_score := 75 + 15 * stream (n + i)
  let bedtime := 23 + 1.5 * stream (2 * n + i)
  let activity_level := 45 + 20 * stream (3 * n + i)
  let stress_level := 5 + 2 * stream (4 * n + i)
  let heart_rate := 65 + 5 * stream (5 * n + i)
  let deep_sleep_pct := 20 + 5 * stream (6 * n + i)
  let rem_sleep_pct := 25 + 5 * stream (7 * n + i)
  { date := i
    sleep_duration := clip sleep_duration 4 12
    quality_score := clip quality_score 0 100
    bedtime := bedtime
    wake_time := qmod24 (bedtime + sleep_duration)
    activity_level := clip activity_level 0 120
    stress_level := clip stress_level 0 10
    heart_rate := clip heart_rate 45 85
    deep_sleep_pct := deep_sleep_pct
    rem_sleep_pct := rem_sleep_pct
    light_sleep_pct := 100 - deep_sleep_pct - rem_sleep_pct }

/-- The body of `generate_data`: `n_samples < 0` fails, otherwise one row per
element of `range(n_samples)`. -/
def generate_data (stream : ℕ → ℚ) (n_samples : ℤ) : Except GenError (List RawObservation) :=
  if n_samples < 0 then .error .negativeDimension
  else .ok ((List.range n_samples.toNat).map (genRow stream n_samples.toNat))

/-- C5: for every `N > 0` the generator succeeds with exactly `N` rows whose
dates are consecutive days `0, 1, 2, …` from the fixed epoch 2025-01-01, and
two runs whose seeded draw streams agree (same seed, same `N`) produce
identical output. -/
theorem generate_data_rows_dates_deterministic
    (stream stream2 : ℕ → ℚ) (n : ℤ) (hn : 0 < n) :
    ∃ rows, generate_data stream n = Except.ok rows ∧
      (rows.length : ℤ) = n ∧
      (∀ i, (hi : i < rows.length) → (rows.get ⟨i, hi⟩).date = i) ∧
      ((∀ k, stream k = stream2 k) →
        generate_data stream n = generate_data stream2 n) := by
  have hn' : ¬ n < 0 := by omega
  have hgen : generate_data stream n =
      Except.ok ((List.range n.toNat).map (genRow stream n.toNat)) := by
    rw [generate_data, if_neg hn']
  refine ⟨_, hgen, ?_, ?_, ?_⟩
  · simp only [List.length_map, List.length_range]
    omega
  · intro i hi
    simp only [List.length_map, List.length_range] at hi
    simp [List.get_map, List.get_range, genRow]
  · intro hstream
    have : stream = stream2 := funext hstream
    rw [this]

/-- C5 witness: the row-count, date and determinism facts at `N = 3` with a
concrete draw stream. -/
theorem generate_data_rows_dates_deterministic_witness :
    ∃ rows, generate_data (fun _ : ℕ => (0 : ℚ)) 3 = Except.ok rows ∧
      (rows.length : ℤ) = 3 ∧
      (∀ i, (hi : i < rows.length) → (rows.get ⟨i, hi⟩).date = i) ∧
      ((∀ k, (fun _ : ℕ => (0 : ℚ)) k = (fun _ : ℕ => (0 : ℚ)) k) →
        generate_data (fun _ : ℕ => (0 : ℚ)) 3 =
          generate_data (fun _ : ℕ => (0 : ℚ)) 3) :=
  generate_data_rows_dates_deterministic (fun _ => 0) (fun _ => 0) 3 (by norm_num)

/-- C3 counterexample: at `N = 0` the generator does not reject the request:
it succeeds and returns an empty table. -/
theorem generate_data_accepts_zero_samples :
    generate_data (fun _ : ℕ => (0 : ℚ)) 0 = Except.ok [] := by
  simp [generate_data]

/-- C3 amended: only a negative sample count makes generation fail (numpy
rejects the negative array dimension before any row is built); every
`N ≥ 0`, including `N = 0`, succeeds. -/
theorem generate_data_rejects_only_negative (stream : ℕ → ℚ) (n : ℤ) :
    (n < 0 → generate_data stream n = Except.error GenError.negativeDimension) ∧
    (0 ≤ n → ∃ rows, generate_data stream n = Except.ok rows) := by
  constructor
  · intro hneg
    simp [generate_data, if_pos hneg]
  · intro hpos
    exact ⟨_, by rw [generate_data, if_neg (by omega : ¬ n < 0)]⟩

/-- C3 amended witness: rejection at `N = -1`, success at `N = 0`. -/
theorem generate_data_rejects_only_negative_witness :
    generate_data (fun _ : ℕ => (0 : ℚ)) (-1) =
      Except.error GenError.negativeDimension ∧
    ∃ rows, generate_data (fun _ : ℕ => (0 : ℚ)) 0 = Except.ok rows :=
  ⟨(generate_data_rejects_only_negative (fun _ => 0) (-1)).1 (by norm_num),
   (generate_data_rejects_only_negative (fun _ => 0) 0).2 (by norm_num)⟩

/-! ## Data loader (`src/data/data_loader.py`, `SleepDataLoader`)

`load_from_csv` wraps `pd.read_csv(filepath, parse_dates=['date'])` in
`try/except` and re-raises any failure as an exception whose message names
the file path and embeds the underlying cause (line 67:
`"Error loading data from " + filepath + ": " + str(e)`).  The underlying
read is modelled as an abstract fallible function of the path. -/

/-- The error raised by `load_from_csv`: it carries the file path and the
text of the underlying cause. -/
structure LoadError where
  path : String
  cause : String
  deriving DecidableEq, Repr

/-- The message of the raised exception (`data_loader.py` line 67). -/
def loadErrorMessage (e : LoadError) : String :=
  "Error loading data from " ++ e.path ++ ": " ++ e.cause

/-- Method `SleepDataLoader.load_from_csv` (`data_loader.py` lines 61–67): return
the parsed table on success; on any failure of the underlying read, raise an
error naming the path and wrapping the cause. -/
def load_from_csv {α : Type} (filepath : String)
    (readCsv : String → Except String α) : Except LoadError α :=
  match readCsv filepath with
  | .ok table => .ok table
  | .error cause => .error { path := filepath, cause := cause }

/-- C8: whenever the underlying delimited read fails, `load_from_csv` fails
with a `LoadError` that names the file path and wraps the underlying cause
(also in its rendered message); it never substitutes data on failure, and on
success it returns the read table unchanged (so it raises nothing else). -/
theorem load_from_csv_loaderror {α : Type} (filepath : String)
    (readCsv : String → Except String α) :
    (∀ cause, readCsv filepath = Except.error cause →
      load_from_csv filepath readCsv =
        Except.error { path := filepath, cause := cause } ∧
      loadErrorMessage { path := filepath, cause := cause } =
        "Error loading data from " ++ filepath ++ ": " ++ cause) ∧
    (∀ table, readCsv filepath = Except.ok table →
      load_from_csv filepath readCsv = Except.ok table) := by
  constructor
  · intro cause hfail
    exact ⟨by simp [load_from_csv, hfail], rfl⟩
  · intro table hok
    simp [load_from_csv, hok]

/-- C8 witness: a concrete failing read is wrapped with the path, a concrete
succeeding read is returned unchanged. -/
theorem load_from_csv_loaderror_witness :
    (@load_from_csv (List RawObservation) "sleep.csv"
        (fun _ => Except.error "no such file") =
        Except.error { path := "sleep.csv", cause := "no such file" } ∧
      loadErrorMessage { path := "sleep.csv", cause := "no such file" } =
        "Error loading data from " ++ "sleep.csv" ++ ": " ++ "no such file") ∧
    load_from_csv "sleep.csv" (fun _ => Except.ok ([] : List RawObservation)) =
      Except.ok ([] : List RawObservation) :=
  ⟨(load_from_csv_loaderror "sleep.csv" (fun _ => Except.error "no such file")).1
      "no such file" rfl,
   (load_from_csv_loaderror "sleep.csv"
      (fun _ => Except.ok ([] : List RawObservation))).2 [] rfl⟩

/-! ## Transformer: `clean_data` (`src/etl/transformer.py` lines 18–29)

Line 21 is `self.data = self.data[self.data.select_dtypes(include=[np.number]) >= 0]`.
The indexer is a boolean *DataFrame* over the numeric columns only, so this
is `DataFrame.where`: each numeric cell is kept when `>= 0` and replaced by
NaN otherwise (NaN cells stay NaN), and every column absent from the mask —
in particular the non-numeric `date` column — is aligned to an all-False
mask and becomes entirely missing.  No row is dropped by this line.
Line 24 then removes exact duplicate rows (NaN compares equal to NaN for
duplicate detection, first occurrence kept) and line 27 sorts by the `date`
column (missing keys placed last, in original order).

A table row is modelled with `date : Option ℤ` (days, `none` = NaT) and its
numeric columns as `nums : List (Option ℚ)` (`none` = NaN). -/

/-- A row as seen by `clean_data`: the non-numeric `date` column plus the
numeric columns in order. -/
structure CleanRow where
  date : Option ℤ
  nums : List (Option ℚ)
  deriving DecidableEq, Repr

/-- One cell of the mask on line 21: kept iff present and `>= 0`. -/
def maskCell (c : Option ℚ) : Option ℚ :=
  match c with
  | some v => if 0 ≤ v then some v else none
  | none => none

/-- Line 21 applied to one row: numeric cells masked, `date` (absent from
the numeric mask frame) set to missing. -/
def maskRow (r : CleanRow) : CleanRow :=
  { date := none, nums := r.nums.map maskCell }

def dropDupAux {α : Type} [DecidableEq α] : List α → List α → List α
  | _, [] => []
  | seen, x :: xs =>
    if x ∈ seen then dropDupAux seen xs else x :: dropDupAux (x :: seen) xs

/-- Pandas `DataFrame.drop_duplicates` (line 24): keep the first occurrence of each
row value. -/
def drop_duplicates {α : Type} [DecidableEq α] (l : List α) : List α :=
  dropDupAux [] l

def insertByDate (r : CleanRow) : List CleanRow → List CleanRow
  | [] => [r]
  | x :: xs =>
    if r.date.getD 0 ≤ x.date.getD 0 then r :: x :: xs else x :: insertByDate r xs

def sortPresentByDate : List CleanRow → List CleanRow
  | [] => []
  | x :: xs => insertByDate x (sortPresentByDate xs)

/-- Pandas `sort_values('date')` (line 27): rows with a date key sorted ascending,
rows with a missing key placed last in their original order. -/
def sort_by_date (l : List CleanRow) : List CleanRow :=
  sortPresentByDate (l.filter (fun r => r.date.isSome)) ++
    l.filter (fun r => r.date.isNone)

/-- Method `SleepDataTransformer.clean_data` (`transformer.py` lines 18–29):
mask on line 21, deduplicate on line 24, sort by date on line 27. -/
def clean_data (l : List CleanRow) : List CleanRow :=
  sort_by_date (drop_duplicates (l.map maskRow))

/-- C1, evaluated at the failing input: `clean_data` does not behave as the
claim states.  On a table of two duplicate-free rows with dates in
descending order and no negative value anywhere, it erases both dates to
missing and leaves the rows in their original, non-date-sorted order; and a
row holding a negative numeric value is not dropped — the negative cell is
replaced by a missing value and the row is kept. -/
theorem clean_data_wipes_dates_and_keeps_negative_rows :
    clean_data [{ date := some 1, nums := [some 2] },
                { date := some 0, nums := [some 3] }] =
      [{ date := none, nums := [some 2] },
       { date := none, nums := [some 3] }] ∧
    clean_data [{ date := some 5, nums := [some (-5), some 1] }] =
      [{ date := none, nums := [none, some 1] }] := by
  constructor <;> rfl

/-! ## Transformer: `engineer_features` (`src/etl/transformer.py` lines 31–52)

Derived columns, each an elementwise expression over the table in its
*current* row order (the method itself performs no sorting):
`bedtime_datetime`/`wake_time_datetime` combine the date with the hour of
day; `sleep_efficiency = (deep_sleep_pct + 0.5*rem_sleep_pct)/100`;
`bedtime_shift = bedtime.diff().abs()` (missing for the first row and
wherever a bedtime involved is missing); `sleep_debt = 8 - sleep_duration`;
`day_of_week = date.dt.dayofweek` (Monday = 0; the epoch 2025-01-01 is a
Wednesday, day 2).  Missing values (NaN/NaT) propagate through every
expression. -/

/-- An input row of `engineer_features` (the columns the method reads). -/
structure ObsRow where
  date : Option ℤ
  sleep_duration : Option ℚ
  bedtime : Option ℚ
  wake_time : Option ℚ
  deep_sleep_pct : Option ℚ
  rem_sleep_pct : Option ℚ
  deriving DecidableEq, Repr

/-- An output row: the input columns plus the six derived columns.
Timestamps are modelled in hours since the epoch. -/
structure FeatRow extends ObsRow where
  bedtime_datetime : Option ℚ
  wake_time_datetime : Option ℚ
  sleep_efficiency : Option ℚ
  bedtime_shift : Option ℚ
  sleep_debt : Option ℚ
  day_of_week : Option ℤ
  deriving DecidableEq, Repr

/-- One row of `engineer_features`, given the previous row (`none` for the
first row, which `diff()` leaves missing). -/
def engineerRow (prev : Option ObsRow) (r : ObsRow) : FeatRow :=
  { toObsRow := r
    bedtime_datetime := Option.map₂ (fun d b => 24 * (d : ℚ) + b) r.date r.bedtime
    wake_time_datetime := Option.map₂ (fun d w => 24 * (d : ℚ) + w) r.date r.wake_time
    sleep_efficiency :=
      Option.map₂ (fun dp rm => (dp + 0.5 * rm) / 100) r.deep_sleep_pct r.rem_sleep_pct
    bedtime_shift :=
      match prev with
      | none => none
      | some p => Option.map₂ (fun b pb => |b - pb|) r.bedtime p.bedtime
    sleep_debt := r.sleep_duration.map (fun x => 8 - x)
    day_of_week := r.date.map (fun d => (d + 2) % 7) }

def engineerGo (prev : Option ObsRow) : List ObsRow → List FeatRow
  | [] => []
  | r :: rest => engineerRow prev r :: engineerGo (some r) rest

/-- Method `SleepDataTransformer.engineer_features` over the table's current row
order. -/
def engineer_features (l : List ObsRow) : List FeatRow :=
  engineerGo none l

/-- The `bedtime_shift` column spelled out: missing for the head row, and
`|bedtime - previous bedtime|` (with missing propagation) for each later
row, in the table's current row order. -/
def bedtimeShifts (l : List ObsRow) : List (Option ℚ) :=
  match l with
  | [] => []
  | r :: rest =>
    none :: List.zipWith
      (fun prev cur => Option.map₂ (fun b pb => |b - pb|) cur.bedtime prev.bedtime)
      (r :: rest) rest

lemma engineerGo_map_efficiency (prev : Option ObsRow) (l : List ObsRow) :
    (engineerGo prev l).map (fun r => r.sleep_efficiency) =
      l.map (fun r =>
        Option.map₂ (fun dp rm => (dp + 0.5 * rm) / 100) r.deep_sleep_pct r.rem_sleep_pct) := by
  induction l generalizing prev with
  | nil => rfl
  | cons r rest ih => simp [engineerGo, engineerRow, ih]

lemma engineerGo_map_shift (p : ObsRow) (l : List ObsRow) :
    (engineerGo (some p) l).map (fun r => r.bedtime_shift) =
      List.zipWith
        (fun prev cur => Option.map₂ (fun b pb => |b - pb|) cur.bedtime prev.bedtime)
        (p :: l) l := by
  induction l generalizing p with
  | nil => rfl
  | cons r rest ih =>
    simp only [engineerGo, List.map_cons, List.zipWith_cons_cons, ih r]
    simp [engineerRow]

lemma engineer_features_map_shift (l : List ObsRow) :
    (engineer_features l).map (fun r => r.bedtime_shift) = bedtimeShifts l := by
  cases l with
  | nil => rfl
  | cons r rest =>
    simp only [engineer_features, engineerGo, List.map_cons, bedtimeShifts,
      engineerGo_map_shift r rest]
    simp [engineerRow]

/-- C7 counterexample: on a table whose two rows carry dates in descending
order (so the date-sorted first row is the *second* physical row),
`engineer_features` leaves `bedtime_shift` missing for the first physical
row and defined for the date-sorted first row — the opposite of the claim,
which ties the missing marker to the date-sorted order. -/
theorem engineer_features_shift_ignores_date_order :
    ((engineer_features
        [{ date := some 1, sleep_duration := some 7, bedtime := some 23,
           wake_time := some 6, deep_sleep_pct := some 20, rem_sleep_pct := some 25 },
         { date := some 0, sleep_duration := some 8, bedtime := some 21,
           wake_time := some 5, deep_sleep_pct := some 18, rem_sleep_pct := some 22 }]).map
        (fun r => r.bedtime_shift) = [none, some 2]) ∧
    ((engineer_features
        [{ date := some 1, sleep_duration := some 7, bedtime := some 23,
           wake_time := some 6, deep_sleep_pct := some 20, rem_sleep_pct := some 25 },
         { date := some 0, sleep_duration := some 8, bedtime := some 21,
           wake_time := some 5, deep_sleep_pct := some 18, rem_sleep_pct := some 22 }]).map
        (fun r => r.date) = [some 1, some 0]) ∧
    (0 : ℤ) < 1 := by
  refine ⟨?_, by rfl, by norm_num⟩
  have : |(21 : ℚ) - 23| = 2 := by norm_num
  simp [engineer_features, engineerGo, engineerRow, this]

/-- C7 amended: for every table, `sleep_efficiency` equals
`(deep_sleep_pct + 0.5*rem_sleep_pct)/100` rowwise (missing propagating),
and `bedtime_shift` is the absolute difference from the *previous row in the
table's current order* — missing for exactly the first row when every
bedtime is present (the method does not sort, so this is the date-sorted
first row only if the table is already sorted by date). -/
theorem engineer_features_efficiency_and_shift (l : List ObsRow) :
    ((engineer_features l).map (fun r => r.sleep_efficiency) =
      l.map (fun r =>
        Option.map₂ (fun dp rm => (dp + 0.5 * rm) / 100) r.deep_sleep_pct r.rem_sleep_pct)) ∧
    ((engineer_features l).map (fun r => r.bedtime_shift) = bedtimeShifts l) ∧
    ((∀ r ∈ l, r.bedtime.isSome) →
      ∀ i, i < l.length →
        (((engineer_features l).map (fun r => r.bedtime_shift)).get? i = some none ↔
          i = 0)) := by
  refine ⟨engineerGo_map_efficiency none l, engineer_features_map_shift l, ?_⟩
  intro hb i hil
  rw [engineer_features_map_shift]
  cases l with
  | nil => simp at hil
  | cons r rest =>
    cases i with
    | zero => simp [bedtimeShifts]
    | succ j =>
      have hj : j < rest.length := by simpa using hil
      have hj' : j < (r :: rest).length := by simp; omega
      simp only [bedtimeShifts, List.get?_cons_succ]
      rw [List.get?_zipWith']
      rw [List.get?_eq_get hj', List.get?_eq_get hj]
      have h1 : (rest.get ⟨j, hj⟩).bedtime.isSome :=
        hb _ (List.mem_cons_of_mem r (List.get_mem _ _ _))
      have h2 : (((r :: rest)).get ⟨j, hj'⟩).bedtime.isSome :=
        hb _ (List.get_mem _ _ _)
      obtain ⟨b1, hb1⟩ := Option.isSome_iff_exists.mp h1
      obtain ⟨b2, hb2⟩ := Option.isSome_iff_exists.mp h2
      have hb1' : rest[j].bedtime = some b1 := hb1
      have hb2' : (r :: rest)[j].bedtime = some b2 := hb2
      simp [hb1', hb2', Option.map₂]

/-- C7 amended witness: on a concrete two-row table with every bedtime
present, the second row's `bedtime_shift` is not the missing marker. -/
theorem engineer_features_efficiency_and_shift_witness :
    ((engineer_features
        [{ date := some 0, sleep_duration := some 7, bedtime := some 22,
           wake_time := some 5, deep_sleep_pct := some 20, rem_sleep_pct := some 25 },
         { date := some 1, sleep_duration := some 8, bedtime := some 23,
           wake_time := some 7, deep_sleep_pct := some 18, rem_sleep_pct := some 22 }]).map
        (fun r => r.bedtime_shift)).get? 1 = some none ↔ (1 : ℕ) = 0 :=
  (engineer_features_efficiency_and_shift
      [{ date := some 0, sleep_duration := some 7, bedtime := some 22,
         wake_time := some 5, deep_sleep_pct := some 20, rem_sleep_pct := some 25 },
       { date := some 1, sleep_duration := some 8, bedtime := some 23,
         wake_time := some 7, deep_sleep_pct := some 18, rem_sleep_pct := some 22 }]).2.2
    (by decide) 1 (by decide)

/-! ## Analyzer: `detect_anomalies` (`src/analysis/analyzer.py` lines 51–54)

`z_scores = np.abs(stats.zscore(self.data[column]))` —
`scipy.stats.zscore` is `(x - mean) / std` with the population standard
deviation (`ddof=0`) of the column itself — and the returned rows are
`self.data[z_scores > threshold]`.  The filter condition `|x - μ| / σ > t`
is encoded without square roots as `t < 0 ∨ (x - μ)² > t² · var`, which is
equivalent over the reals whenever `σ = √var > 0`.  When the variance is
zero, every z-score is `0/0 = NaN`, `NaN > t` is false for every `t`, and
the code silently returns an empty selection — it raises nothing (no
`AnalysisError` class exists anywhere in the repository). -/

/-- Population mean of a column (`np.mean`; `0` on an empty column, which
only feeds the equally-empty selection). -/
def popMean (xs : List ℚ) : ℚ := xs.sum / xs.length

/-- Population variance of a column (`ddof=0`, as `scipy.stats.zscore`
uses). -/
def popVar (xs : List ℚ) : ℚ :=
  ((xs.map (fun x => (x - popMean xs) ^ 2)).sum) / xs.length

/-- The row-selection mask `|zscore x| > t`, square-root-free. -/
def anomalous (xs : List ℚ) (t : ℚ) (x : ℚ) : Bool :=
  decide (t < 0) || decide ((x - popMean xs) ^ 2 > t ^ 2 * popVar xs)

/-- The error the spec demands for a degenerate statistical input.  The
source never raises it (the class does not exist in the repository), so the
embedded `detect_anomalies` always returns `Except.ok`. -/
inductive AnalysisError where
  | zeroVariance
  deriving DecidableEq, Repr

/-- Method `SleepAnalyzer.detect_anomalies` (`analyzer.py` lines 51–54) on one
column: with zero variance all z-scores are NaN and no row passes the mask;
otherwise exactly the rows with `|zscore| > threshold` are returned. -/
def detect_anomalies (xs : List ℚ) (threshold : ℚ) :
    Except AnalysisError (List ℚ) :=
  if popVar xs = 0 then .ok []
  else .ok (xs.filter (anomalous xs threshold))

/-- C2 counterexample: on the zero-variance column `[5, 5, 5]` with the
default threshold 2.0, `detect_anomalies` does not raise an
`AnalysisError`; it silently returns an empty result. -/
theorem detect_anomalies_zero_variance_silent :
    detect_anomalies [5, 5, 5] 2 = Except.ok [] ∧ popVar [5, 5, 5] = 0 := by
  have h : popVar [5, 5, 5] = 0 := by norm_num [popVar, popMean]
  exact ⟨by simp [detect_anomalies, h], h⟩

/-- C2 amended: `detect_anomalies` never raises; on a zero-variance column
it silently returns the empty selection, and otherwise it returns exactly
the rows of the column whose `|z-score|` (population mean/std of the column
itself) strictly exceeds the threshold. -/
theorem detect_anomalies_spec (xs : List ℚ) (t : ℚ) :
    (popVar xs = 0 → detect_anomalies xs t = Except.ok []) ∧
    (popVar xs ≠ 0 →
      detect_anomalies xs t = Except.ok (xs.filter (anomalous xs t))) ∧
    (∀ x, x ∈ xs.filter (anomalous xs t) ↔
      x ∈ xs ∧ (t < 0 ∨ (x - popMean xs) ^ 2 > t ^ 2 * popVar xs)) := by
  refine ⟨fun h => by simp [detect_anomalies, h],
          fun h => by simp [detect_anomalies, h], fun x => ?_⟩
  rw [List.mem_filter]
  simp [anomalous]

/-- C2 amended witness: the zero-variance branch at `[5, 5, 5]`, the
selection at `[1, 2, 9]` with threshold 1, and the mask characterization of
the anomaly 9. -/
theorem detect_anomalies_spec_witness :
    detect_anomalies [5, 5, 5] 2 = Except.ok [] ∧
    detect_anomalies [1, 2, 9] 1 =
      Except.ok ([1, 2, 9].filter (anomalous [1, 2, 9] 1)) ∧
    (9 ∈ [1, 2, 9].filter (anomalous [1, 2, 9] 1) ↔
      9 ∈ ([1, 2, 9] : List ℚ) ∧
        ((1 : ℚ) < 0 ∨ ((9 : ℚ) - popMean [1, 2, 9]) ^ 2 > 1 ^ 2 * popVar [1, 2, 9])) :=
  ⟨(detect_anomalies_spec [5, 5, 5] 2).1 (by norm_num [popVar, popMean]),
   (detect_anomalies_spec [1, 2, 9] 1).2.1 (by norm_num [popVar, popMean]),
   (detect_anomalies_spec [1, 2, 9] 1).2.2 9⟩

/-! ## Analyzer: `analyze_weekly_patterns` (`src/analysis/analyzer.py` lines 33–41)

`self.data.groupby('day_of_week').agg({...'mean'...}).round(2)`: one output
row per distinct `day_of_week` value present, holding the mean of each
aggregated column over that day's rows, rounded to 2 decimal places
(`round` rounds half to even).  One aggregated column is modelled: a table
is a list of `(day_of_week, value)` pairs. -/

/-- Round half to even (numpy/pandas `round`) to an integer. -/
def roundHalfEven (q : ℚ) : ℤ :=
  if q - ⌊q⌋ < 1 / 2 then ⌊q⌋
  else if 1 / 2 < q - ⌊q⌋ then ⌊q⌋ + 1
  else if ⌊q⌋ % 2 = 0 then ⌊q⌋ else ⌊q⌋ + 1

/-- Pandas `.round(2)`: round half to even at the second decimal place. -/
def round2 (q : ℚ) : ℚ := (roundHalfEven (100 * q) : ℚ) / 100

/-- The distinct `day_of_week` keys present in the table (the groupby
groups). -/
def groupDays (t : List (ℤ × ℚ)) : List ℤ := (t.map Prod.fst).dedup

/-- The column values of the rows of one day group. -/
def groupVals (t : List (ℤ × ℚ)) (d : ℤ) : List ℚ :=
  (t.filter (fun p => p.1 = d)).map Prod.snd

/-- Method `SleepAnalyzer.analyze_weekly_patterns` on one aggregated column: per
present day, the day-group mean rounded to 2 decimals. -/
def analyze_weekly_patterns (t : List (ℤ × ℚ)) : List (ℤ × ℚ) :=
  (groupDays t).map (fun d => (d, round2 (popMean (groupVals t d))))

/-- The claim's re-aggregation: the produced per-day means, weighted by each
day-group's row count, divided by the total row count. -/
def weightedReagg (t : List (ℤ × ℚ)) : ℚ :=
  ((analyze_weekly_patterns t).map
    (fun dm => ((groupVals t dm.1).length : ℚ) * dm.2)).sum / t.length

lemma abs_roundHalfEven_sub (q : ℚ) : |(roundHalfEven q : ℚ) - q| ≤ 1 / 2 := by
  have h0 : (⌊q⌋ : ℚ) ≤ q := Int.floor_le q
  have h1 : q < ⌊q⌋ + 1 := Int.lt_floor_add_one q
  unfold roundHalfEven
  split_ifs <;> rw [abs_le] <;> constructor <;> push_cast <;> linarith

lemma abs_round2_sub (q : ℚ) : |round2 q - q| ≤ 1 / 200 := by
  have h := abs_roundHalfEven_sub (100 * q)
  have heq : round2 q - q = ((roundHalfEven (100 * q) : ℚ) - 100 * q) / 100 := by
    unfold round2; ring
  rw [heq, abs_div, abs_of_pos (show (0 : ℚ) < 100 by norm_num)]
  linarith

lemma sum_map_add {α : Type} (l : List α) (f g : α → ℚ) :
    (l.map (fun x => f x + g x)).sum = (l.map f).sum + (l.map g).sum := by
  induction l with
  | nil => simp
  | cons x xs ih => simp [ih]; ring

lemma sum_map_sub {α : Type} (l : List α) (f g : α → ℚ) :
    (l.map (fun x => f x - g x)).sum = (l.map f).sum - (l.map g).sum := by
  induction l with
  | nil => simp
  | cons x xs ih => simp [ih]; ring

lemma abs_sum_le_sum_map_abs {α : Type} (l : List α) (f : α → ℚ) :
    |(l.map f).sum| ≤ (l.map (fun x => |f x|)).sum := by
  induction l with
  | nil => simp
  | cons x xs ih =>
    simp only [List.map_cons, List.sum_cons]
    calc |f x + (xs.map f).sum| ≤ |f x| + |(xs.map f).sum| := abs_add _ _
      _ ≤ |f x| + (xs.map (fun x => |f x|)).sum := by linarith

lemma sum_map_le_sum_map {α : Type} (l : List α) (f g : α → ℚ)
    (h : ∀ x ∈ l, f x ≤ g x) :
    (l.map f).sum ≤ (l.map g).sum := by
  induction l with
  | nil => simp
  | cons x xs ih =>
    simp only [List.map_cons, List.sum_cons]
    have hx := h x (List.mem_cons_self x xs)
    have hxs := ih fun y hy => h y (List.mem_cons_of_mem x hy)
    linarith

lemma sum_map_one {α : Type} (l : List α) :
    (l.map (fun _ => (1 : ℚ))).sum = l.length := by
  induction l with
  | nil => simp
  | cons x xs ih => simp [ih]; ring

lemma sum_if_eq_zero {c : ℚ} {a : ℤ} (ds : List ℤ) (ha : a ∉ ds) :
    (ds.map (fun d => if a = d then c else 0)).sum = 0 := by
  induction ds with
  | nil => simp
  | cons d ds ih =>
    simp only [List.mem_cons, not_or] at ha
    simp [if_neg ha.1, ih ha.2]

lemma sum_if_eq_single {c : ℚ} {a : ℤ} (ds : List ℤ) (hnd : ds.Nodup)
    (ha : a ∈ ds) :
    (ds.map (fun d => if a = d then c else 0)).sum = c := by
  induction ds with
  | nil => cases ha
  | cons d ds ih =>
    rcases List.mem_cons.mp ha with h | h
    · subst h
      have hnotin : a ∉ ds := (List.nodup_cons.mp hnd).1
      simp [sum_if_eq_zero ds hnotin]
    · have hne : a ≠ d := by
        rintro rfl
        exact (List.nodup_cons.mp hnd).1 h
      simp [if_neg hne, ih (List.nodup_cons.mp hnd).2 h]

/-- Summing any rowwise quantity group-by-group over the distinct keys
recovers the sum over the whole table. -/
lemma sum_over_groups (ds : List ℤ) (hnd : ds.Nodup) (t : List (ℤ × ℚ))
    (hcov : ∀ p ∈ t, p.1 ∈ ds) (f : (ℤ × ℚ) → ℚ) :
    (ds.map (fun d => ((t.filter (fun p => p.1 = d)).map f).sum)).sum =
      (t.map f).sum := by
  induction t with
  | nil => simp
  | cons p rest ih =>
    have hcov' : ∀ q ∈ rest, q.1 ∈ ds := fun q hq => hcov q (List.mem_cons_of_mem _ hq)
    have key : ∀ d : ℤ, (((p :: rest).filter (fun r => r.1 = d)).map f).sum =
        (if p.1 = d then f p else 0) +
          ((rest.filter (fun r => r.1 = d)).map f).sum := by
      intro d
      by_cases h : p.1 = d
      · simp [List.filter_cons, h]
      · simp [List.filter_cons, h]
    calc (ds.map (fun d => (((p :: rest).filter (fun r => r.1 = d)).map f).sum)).sum
        = (ds.map (fun d => (if p.1 = d then f p else 0) +
            ((rest.filter (fun r => r.1 = d)).map f).sum)).sum := by
          exact congrArg List.sum (List.map_congr_left fun d _ => key d)
      _ = (ds.map (fun d => if p.1 = d then f p else 0)).sum +
            (ds.map (fun d => ((rest.filter (fun r => r.1 = d)).map f).sum)).sum :=
          sum_map_add ds _ _
      _ = f p + (rest.map f).sum := by
          rw [sum_if_eq_single ds hnd (hcov p (List.mem_cons_self p rest)),
            ih hcov']
      _ = ((p :: rest).map f).sum := by simp

lemma groupVals_length_pos {t : List (ℤ × ℚ)} {d : ℤ} (hd : d ∈ groupDays t) :
    0 < (groupVals t d).length := by
  unfold groupDays at hd
  rw [List.mem_dedup] at hd
  obtain ⟨p, hp, hpd⟩ := List.mem_map.mp hd
  have hmem : p ∈ t.filter (fun q => q.1 = d) :=
    List.mem_filter.mpr ⟨hp, by simp [hpd]⟩
  unfold groupVals
  rw [List.length_map]
  exact List.length_pos.mpr fun hnil => by simp [hnil] at hmem

/-- C9: re-aggregating the per-day rounded means of `analyze_weekly_patterns`,
weighted by each day-group's row count, recovers the overall ungrouped mean
of the column up to the half-ulp tolerance of rounding to 2 decimal places
(1/200). -/
theorem analyze_weekly_patterns_weighted_mean (t : List (ℤ × ℚ)) (ht : t ≠ []) :
    |weightedReagg t - popMean (t.map Prod.snd)| ≤ 1 / 200 := by
  have hnd : (groupDays t).Nodup := List.nodup_dedup _
  have hcov : ∀ p ∈ t, p.1 ∈ groupDays t := fun p hp =>
    List.mem_dedup.mpr (List.mem_map_of_mem Prod.fst hp)
  have hN : (0 : ℚ) < t.length := by
    exact_mod_cast List.length_pos.mpr ht
  -- the weighted sum of the exact group means is the total column sum
  have hB : ((groupDays t).map
      (fun d => ((groupVals t d).length : ℚ) * popMean (groupVals t d))).sum =
      (t.map Prod.snd).sum := by
    have hptwise : ∀ d ∈ groupDays t,
        ((groupVals t d).length : ℚ) * popMean (groupVals t d) =
          (groupVals t d).sum := by
      intro d hd
      have hpos : (0 : ℚ) < (groupVals t d).length := by
        exact_mod_cast groupVals_length_pos hd
      unfold popMean
      field_simp
    rw [List.map_congr_left hptwise]
    simpa [groupVals] using sum_over_groups (groupDays t) hnd t hcov Prod.snd
  -- the group sizes add up to the table size
  have hlen : ((groupDays t).map (fun d => ((groupVals t d).length : ℚ))).sum =
      (t.length : ℚ) := by
    have h1 := sum_over_groups (groupDays t) hnd t hcov (fun _ => (1 : ℚ))
    have h2 : ∀ d ∈ groupDays t,
        ((t.filter (fun p => p.1 = d)).map (fun _ => (1 : ℚ))).sum =
          ((groupVals t d).length : ℚ) := by
      intro d _
      rw [sum_map_one]
      simp [groupVals]
    rw [List.map_congr_left h2] at h1
    rw [h1, sum_map_one]
  -- rounding each group mean moves the weighted sum by at most length/200
  have hdiff : |((groupDays t).map
        (fun d => ((groupVals t d).length : ℚ) * round2 (popMean (groupVals t d)))).sum -
      ((groupDays t).map
        (fun d => ((groupVals t d).length : ℚ) * popMean (groupVals t d))).sum| ≤
      (t.length : ℚ) / 200 := by
    rw [← sum_map_sub]
    calc |((groupDays t).map
          (fun d => ((groupVals t d).length : ℚ) * round2 (popMean (groupVals t d)) -
            ((groupVals t d).length : ℚ) * popMean (groupVals t d))).sum|
        ≤ ((groupDays t).map
          (fun d => |((groupVals t d).length : ℚ) * round2 (popMean (groupVals t d)) -
            ((groupVals t d).length : ℚ) * popMean (groupVals t d)|)).sum :=
        abs_sum_le_sum_map_abs _ _
      _ ≤ ((groupDays t).map
          (fun d => ((groupVals t d).length : ℚ) * (1 / 200))).sum := by
        apply sum_map_le_sum_map
        intro d _
        rw [← mul_sub, abs_mul,
          abs_of_nonneg (by positivity : (0 : ℚ) ≤ ((groupVals t d).length : ℚ))]
        exact mul_le_mul_of_nonneg_left (abs_round2_sub _) (by positivity)
      _ = ((groupDays t).map (fun d => ((groupVals t d).length : ℚ))).sum * (1 / 200) :=
        List.sum_map_mul_right _ _ _
      _ = (t.length : ℚ) / 200 := by rw [hlen]; ring
  -- assemble
  have hA : weightedReagg t = ((groupDays t).map
      (fun d => ((groupVals t d).length : ℚ) * round2 (popMean (groupVals t d)))).sum /
      t.length := by
    unfold weightedReagg analyze_weekly_patterns
    rw [List.map_map]
    rfl
  have hpm : popMean (t.map Prod.snd) = (t.map Prod.snd).sum / t.length := by
    unfold popMean
    rw [List.length_map]
  rw [hA, hpm, ← hB, div_sub_div_same, abs_div, abs_of_pos hN, div_le_iff hN]
  calc |((groupDays t).map
        (fun d => ((groupVals t d).length : ℚ) * round2 (popMean (groupVals t d)))).sum -
      ((groupDays t).map
        (fun d => ((groupVals t d).length : ℚ) * popMean (groupVals t d))).sum|
      ≤ (t.length : ℚ) / 200 := hdiff
    _ = 1 / 200 * t.length := by ring

/-- C9 witness: the bound at a concrete three-row, two-day table. -/
theorem analyze_weekly_patterns_weighted_mean_witness :
    |weightedReagg [(0, 1), (0, 2), (1, 5)] -
      popMean (([(0, 1), (0, 2), (1, 5)] : List (ℤ × ℚ)).map Prod.snd)| ≤ 1 / 200 :=
  analyze_weekly_patterns_weighted_mean [(0, 1), (0, 2), (1, 5)] (by simp)

end SleepHealth
